import Mathlib

/-!
Verification of the sales-call classification-and-extraction pipeline.

The definitions below are a shallow embedding of the TypeScript pipeline:
the classifier (rule tier and the pure response-processing of the LLM
tier), the extractor's request shaping and result normalization, the
entity resolvers, the store writer and the pipeline driver. JavaScript
strings are modelled as Lean `String`s (sequences of characters); the
relational store is explicit state (a `Store` record of table lists, with
a counter in place of random UUID primary keys and a fixed clock `now` in
place of the wall clock); the two LLM endpoints are oracles: their pure
response-processing is embedded, while the network call itself is a
per-record `Behavior` value saying what the model answered (or that the
call / JSON parse failed, which the TypeScript code surfaces by throwing).
-/

set_option maxHeartbeats 1000000

/-! ## JavaScript-style string helpers -/

/-- Characters stripped by the JS `trim` calls in the pipeline. -/
def wsChar (c : Char) : Bool := c = ' ' || c = '\t' || c = '\n' || c = '\r'

/-- JS `String.prototype.trim`. -/
def trimStr (s : String) : String :=
  ⟨((s.data.dropWhile wsChar).reverse.dropWhile wsChar).reverse⟩

/-- JS `String.prototype.toLowerCase` (the pipeline only feeds it ASCII). -/
def lowerStr (s : String) : String := ⟨s.data.map Char.toLower⟩

/-- Substring search on character lists (JS `String.prototype.includes`). -/
def subL (pat : List Char) : List Char → Bool
  | [] => pat.isEmpty
  | c :: rest => pat.isPrefixOf (c :: rest) || subL pat rest

/-- JS `s.includes(pat)`. -/
def containsSub (s pat : String) : Bool := subL pat.data s.data

/-- JS `s.endsWith(suf)`. -/
def strEndsWith (s suf : String) : Bool := suf.data.isSuffixOf s.data

/-- JS `s.slice(0, n)`. -/
def strTake (s : String) (n : Nat) : String := ⟨s.data.take n⟩

/-- JS `Array.prototype.join(sep)`. -/
def joinSep (sep : String) : List String → String
  | [] => ""
  | [s] => s
  | s :: rest => s ++ sep ++ joinSep sep rest

/-- JS `Array.from(new Set(xs))`: deduplicate keeping first occurrences;
`seen` accumulates the values already emitted. -/
def dedupAcc (seen : List String) : List String → List String
  | [] => []
  | x :: xs => if x ∈ seen then dedupAcc seen xs else x :: dedupAcc (x :: seen) xs

/-- JS `v || d` for an optional string `v` (absent, `null` and `""` are falsy). -/
def jsOr (v : Option String) (d : String) : String :=
  match v with
  | some s => if s = "" then d else s
  | none => d

/-- JS `v || null` for an optional string `v`. -/
def jsNull (v : Option String) : Option String :=
  match v with
  | some s => if s = "" then none else some s
  | none => none

/-! ## Classifier (src/lib/classifier.ts) -/

/-- The classification labels (`Classification` union type). -/
inductive Classification where
  | sales_call
  | partner_call
  | internal
  | other
deriving DecidableEq

/-- The `summary` sub-object of a raw Fireflies meeting record. -/
structure SummaryData where
  meeting_type : Option String := none
  overview : Option String := none
  keywords : Option String := none
  short_summary : Option String := none
  topics_discussed : Option String := none
deriving DecidableEq

/-- One element of `meeting_attendees`. -/
structure Attendee where
  displayName : Option String := none
  email : Option String := none
  name : Option String := none
deriving DecidableEq

/-- The `RawMeetingData` interface: the opaque JSON blob of one ingested
meeting.  `date`, `duration` and `transcript_url` are read by the store
writer; dates are modelled as abstract `Nat` timestamps. -/
structure RawMeetingData where
  title : Option String := none
  participants : Option (List String) := none
  meeting_attendees : Option (List Attendee) := none
  host_email : Option String := none
  organizer_email : Option String := none
  transcript_text : Option String := none
  summary : Option SummaryData := none
  date : Option Nat := none
  duration : Option Nat := none
  transcript_url : Option String := none
deriving DecidableEq

/-- `SHERLOCK_DOMAIN` (default of the `SHERLOCK_EMAIL_DOMAIN` env var). -/
def SHERLOCK_DOMAIN : String := "sherlock.xyz"

/-- `SALES_KEYWORDS`. -/
def SALES_KEYWORDS : List String :=
  ["audit", "security audit", "smart contract", "retainer", "lifecycle",
   "pricing", "proposal", "scope", "timeline", "engagement",
   "quote", "budget", "deal", "contract", "sow", "statement of work",
   "penetration test", "code review", "security review",
   "sherlock", "coverage", "protocol", "defi"]

/-- `PARTNER_KEYWORDS`. -/
def PARTNER_KEYWORDS : List String :=
  ["partnership", "vendor", "integration", "conference", "event",
   "sponsor", "collaborate", "referral", "reseller"]

/-- `INTERNAL_KEYWORDS`. -/
def INTERNAL_KEYWORDS : List String :=
  ["standup", "sprint", "retro", "retrospective", "1:1", "one on one",
   "team sync", "all hands", "weekly sync", "daily standup"]

/-- `getAllEmails`: collect host, organizer, `@`-containing participants and
attendee emails, lower-cased, deduplicated in insertion order. -/
def getAllEmails (data : RawMeetingData) : List String :=
  let e1 := match data.host_email with
    | some h => if h = "" then [] else [lowerStr h]
    | none => []
  let e2 := match data.organizer_email with
    | some o => if o = "" then [] else [lowerStr o]
    | none => []
  let e3 := (data.participants.getD []).filterMap fun p =>
    if p ≠ "" ∧ containsSub p "@" then some (lowerStr p) else none
  let e4 := (data.meeting_attendees.getD []).filterMap fun a =>
    match a.email with
    | some e => if e = "" then none else some (lowerStr e)
    | none => none
  dedupAcc [] (e1 ++ e2 ++ e3 ++ e4)

/-- `countKeywordMatches`: number of distinct keywords occurring in the text. -/
def countKeywordMatches (text : String) (keywords : List String) : Nat :=
  (keywords.filter fun kw => containsSub (lowerStr text) kw).length

/-- A field pushed onto `textParts` only when truthy. -/
def truthyPart (v : Option String) : List String :=
  match v with
  | some s => if s = "" then [] else [s]
  | none => []

/-- `classifyByRules`: the deterministic rule tier; `none` means ambiguous
(escalate to the LLM tier). -/
def classifyByRules (data : RawMeetingData) : Option Classification :=
  let emails := getAllEmails data
  let sherlockEmails := emails.filter fun e => strEndsWith e ("@" ++ SHERLOCK_DOMAIN)
  let externalEmails := emails.filter fun e => !strEndsWith e ("@" ++ SHERLOCK_DOMAIN)
  if sherlockEmails.length > 0 ∧ externalEmails.length = 0 then
    some .internal
  else
    let textParts : List String :=
      truthyPart data.title ++
      truthyPart (data.summary.bind SummaryData.meeting_type) ++
      truthyPart (data.summary.bind SummaryData.overview) ++
      truthyPart (data.summary.bind SummaryData.keywords) ++
      truthyPart (data.summary.bind SummaryData.short_summary) ++
      truthyPart (data.summary.bind SummaryData.topics_discussed)
    let corpus := joinSep " " textParts
    if trimStr corpus = "" then none
    else
      let salesScore := countKeywordMatches corpus SALES_KEYWORDS
      let partnerScore := countKeywordMatches corpus PARTNER_KEYWORDS
      let internalScore := countKeywordMatches corpus INTERNAL_KEYWORDS
      if salesScore ≥ 3 ∧ salesScore > partnerScore ∧ salesScore > internalScore then
        some .sales_call
      else if partnerScore ≥ 2 ∧ partnerScore > salesScore then
        some .partner_call
      else if internalScore ≥ 2 ∧ internalScore > salesScore then
        some .internal
      else
        let meetingType := lowerStr (jsOr (data.summary.bind SummaryData.meeting_type) "")
        if containsSub meetingType "sales" ∨ containsSub meetingType "discovery" ∨
            containsSub meetingType "pitch" then
          some .sales_call
        else if containsSub meetingType "internal" ∨ containsSub meetingType "standup" ∨
            containsSub meetingType "team" then
          some .internal
        else if salesScore ≥ 1 ∧ externalEmails.length > 0 then
          some .sales_call
        else
          none

/-- The response clean-up of `classifyByLLM`:
`.trim().toLowerCase().replace(non [a-z_], "")`. -/
def cleanLLMResponse (s : String) : String :=
  ⟨((trimStr s).data.map Char.toLower).filter fun c => ('a' ≤ c ∧ c ≤ 'z') ∨ c = '_'⟩

/-- The `valid.includes(text)` check of `classifyByLLM`, as a partial decode. -/
def classificationOfToken (s : String) : Option Classification :=
  if s = "sales_call" then some .sales_call
  else if s = "partner_call" then some .partner_call
  else if s = "internal" then some .internal
  else if s = "other" then some .other
  else none

/-- The pure tail of `classifyByLLM`: clean the model's response text and
decode it, falling back to `other`. -/
def classifyByLLMText (resp : String) : Classification :=
  (classificationOfToken (cleanLLMResponse resp)).getD .other

/-- `classifyMeeting`, with the LLM call oracled: `llm = some r` means the
model answered with text `r`; `llm = none` means the network call threw.
The `Nat` counts LLM invocations; a `none` result models the propagated
exception. -/
def classifyMeetingRun (data : RawMeetingData) (llm : Option String) :
    Option (Classification × Nat) :=
  match classifyByRules data with
  | some c => some (c, 0)
  | none => llm.map fun r => (classifyByLLMText r, 1)

/-! ## Extractor (src/lib/extractor.ts) -/

/-- The fixed `EXTRACTION_PROMPT` instruction text. -/
def EXTRACTION_PROMPT : String :=
  "You are analyzing a sales call transcript from Sherlock, a smart contract security company. Extract structured data from this transcript.\n" ++
  "\n" ++
  "Sherlock offers:\n" ++
  "- Smart contract security audits (one-time code reviews)\n" ++
  "- Security retainers (ongoing security relationships)\n" ++
  "- Lifecycle security services (architecture review through deployment)\n" ++
  "\n" ++
  "IMPORTANT: Return ONLY valid JSON, no markdown code fences, no explanation.\n" ++
  "\n" ++
  "Extract the following fields:\n" ++
  "\n" ++
  "\x7b\n" ++
  "  \"call_type\": \"discovery\" | \"pitch\" | \"follow_up\" | \"closing\" | \"check_in\",\n" ++
  "  \"offering_pitched\": \"audit\" | \"retainer\" | \"lifecycle\" | \"none\",\n" ++
  "  \"company_name\": \"Name of the prospect company/protocol (best guess from context)\",\n" ++
  "  \"prospect_names\": [\x7b\"name\": \"Full Name\", \"role\": \"Their role/title if mentioned\"\x7d],\n" ++
  "  \"team_members\": [\x7b\"name\": \"Full Name\", \"email\": \"email@sherlock.xyz if identifiable\"\x7d],\n" ++
  "  \"tech_stack\": [\"Solidity\", \"Foundry\", etc. - only include if specifically mentioned],\n" ++
  "  \"call_outcome\": \"positive\" | \"negative\" | \"neutral\" | \"follow_up_scheduled\" | \"proposal_sent\" | \"declined\",\n" ++
  "  \"deal_size\": \"$X\" or null if not mentioned,\n" ++
  "  \"call_quality_score\": 1-10 (10 = very productive sales conversation with clear next steps),\n" ++
  "  \"quality_rationale\": \"Brief explanation of the score\",\n" ++
  "  \"objections\": [\n" ++
  "    \x7b\n" ++
  "      \"type_key\": \"budget_timing\" | \"need_internal_buyin\" | \"already_have_auditor\" | \"scope_concerns\" | \"timeline_too_long\" | \"not_ready_yet\" | \"comparing_competitors\" | \"other\",\n" ++
  "      \"quote\": \"Exact or near-exact quote from prospect\",\n" ++
  "      \"context\": \"Brief context around the objection\"\n" ++
  "    \x7d\n" ++
  "  ],\n" ++
  "  \"prospect_questions\": [\"Questions the prospect asked\"],\n" ++
  "  \"key_quotes\": [\n" ++
  "    \x7b\n" ++
  "      \"speaker\": \"Speaker name\",\n" ++
  "      \"quote_text\": \"Notable quote\",\n" ++
  "      \"context\": \"Why this quote matters\"\n" ++
  "    \x7d\n" ++
  "  ],\n" ++
  "  \"follow_up_actions\": [\n" ++
  "    \x7b\n" ++
  "      \"action_text\": \"What needs to happen next\",\n" ++
  "      \"assigned_to\": \"Who is responsible\"\n" ++
  "    \x7d\n" ++
  "  ],\n" ++
  "  \"counter_responses\": [\n" ++
  "    \x7b\n" ++
  "      \"objection_type_key\": \"Same type_key as the objection being countered\",\n" ++
  "      \"response_text\": \"How the Sherlock team member responded\",\n" ++
  "      \"outcome\": \"effective\" | \"partially_effective\" | \"ineffective\"\n" ++
  "    \x7d\n" ++
  "  ]\n" ++
  "\x7d\n" ++
  "\n" ++
  "Rules:\n" ++
  "- If a field has no data, use empty array [] or null as appropriate\n" ++
  "- For company_name, infer from context (meeting title, domain names, project names mentioned)\n" ++
  "- For team_members, anyone with @sherlock.xyz email or clearly on the Sherlock team\n" ++
  "- Only include technologies that are explicitly mentioned in the conversation\n" ++
  "- call_quality_score: 1-3 = poor (off-topic, no engagement), 4-6 = average, 7-9 = good (clear progress), 10 = excellent (deal advancing)\n" ++
  "- Keep quotes accurate â€” paraphrase only if exact text isn\x27t clear\n" ++
  "- For objection type_key, map to the canonical types. Use \"other\" only if none fit."

/-- The marker appended when the request text is truncated. -/
def TRUNCATION_MARKER : String := "\n\n[Transcript truncated]"

/-- The character ceiling of the extraction request body. -/
def TRUNCATION_LIMIT : Nat := 100000

/-- `contextParts.join("\n")` of `extractSalesCall`: optional title line,
optional summary line (both skipped when falsy), then the transcript block. -/
def buildUserContent (title : String) (summary : Option String) (transcript : String) :
    String :=
  joinSep "\n"
    ((if title = "" then [] else ["Meeting title: \"" ++ title ++ "\""]) ++
     (match summary with
      | some s => if s = "" then [] else ["Meeting summary: \"" ++ s ++ "\""]
      | none => []) ++
     ["\nTranscript:\n" ++ transcript])

/-- The truncation step of `extractSalesCall`. -/
def truncateForModel (u : String) : String :=
  if u.length > TRUNCATION_LIMIT then strTake u TRUNCATION_LIMIT ++ TRUNCATION_MARKER else u

/-- The full request text sent to the model by `extractSalesCall`
(`EXTRACTION_PROMPT` then a blank line then the possibly-truncated body). -/
def extractionRequestText (title : String) (summary : Option String) (transcript : String) :
    String :=
  EXTRACTION_PROMPT ++ ("\n\n" ++ truncateForModel (buildUserContent title summary transcript))

/-- The `call_quality_score` field of the parsed JSON object, as the
`typeof raw.call_quality_score === "number"` test sees it: a number, some
non-numeric value, or absent.  JSON numbers are modelled as integers (the
schema asks for an integer 1-10). -/
inductive JScore where
  | num (n : Int)
  | nonNumber
  | absent
deriving DecidableEq

/-- One entry of `prospect_names`. -/
structure ProspectItem where
  name : String
  role : Option String := none
deriving DecidableEq

/-- One entry of `team_members`. -/
structure TeamMemberItem where
  name : String
  email : Option String := none
deriving DecidableEq

/-- One entry of `objections`. -/
structure ObjectionItem where
  type_key : String
  quote : Option String := none
  context : Option String := none
deriving DecidableEq

/-- One entry of `key_quotes`. -/
structure QuoteItem where
  speaker : Option String := none
  quote_text : String
  context : Option String := none
deriving DecidableEq

/-- One entry of `follow_up_actions`. -/
structure FollowUpItem where
  action_text : String
  assigned_to : Option String := none
deriving DecidableEq

/-- One entry of `counter_responses`. -/
structure CounterItem where
  objection_type_key : String
  response_text : String
  outcome : Option String := none
deriving DecidableEq

/-- The parsed-but-unnormalized JSON object handed to `normalizeResult`.
`none` on a string field models an absent/null value; `none` on an array
field models `Array.isArray(...)` being false. -/
structure RawExtraction where
  call_type : Option String := none
  offering_pitched : Option String := none
  company_name : Option String := none
  prospect_names : Option (List ProspectItem) := none
  team_members : Option (List TeamMemberItem) := none
  tech_stack : Option (List String) := none
  call_outcome : Option String := none
  deal_size : Option String := none
  call_quality_score : JScore := .absent
  quality_rationale : Option String := none
  objections : Option (List ObjectionItem) := none
  prospect_questions : Option (List String) := none
  key_quotes : Option (List QuoteItem) := none
  follow_up_actions : Option (List FollowUpItem) := none
  counter_responses : Option (List CounterItem) := none
deriving DecidableEq

/-- The normalized `ExtractionResult` interface. -/
structure ExtractionResult where
  call_type : String
  offering_pitched : String
  company_name : String
  prospect_names : List ProspectItem
  team_members : List TeamMemberItem
  tech_stack : List String
  call_outcome : String
  deal_size : Option String
  call_quality_score : Int
  quality_rationale : String
  objections : List ObjectionItem
  prospect_questions : List String
  key_quotes : List QuoteItem
  follow_up_actions : List FollowUpItem
  counter_responses : List CounterItem
deriving DecidableEq

/-- `normalizeResult`: defensive normalization of the parsed model output. -/
def normalizeResult (raw : RawExtraction) : ExtractionResult where
  call_type := jsOr raw.call_type "discovery"
  offering_pitched := jsOr raw.offering_pitched "none"
  company_name := jsOr raw.company_name "Unknown"
  prospect_names := raw.prospect_names.getD []
  team_members := raw.team_members.getD []
  tech_stack := raw.tech_stack.getD []
  call_outcome := jsOr raw.call_outcome "neutral"
  deal_size := jsNull raw.deal_size
  call_quality_score :=
    match raw.call_quality_score with
    | .num n => min 10 (max 1 n)
    | _ => 5
  quality_rationale := jsOr raw.quality_rationale ""
  objections := raw.objections.getD []
  prospect_questions := raw.prospect_questions.getD []
  key_quotes := raw.key_quotes.getD []
  follow_up_actions := raw.follow_up_actions.getD []
  counter_responses := raw.counter_responses.getD []

/-! ## Relational store (src/db/schema.ts tables, restricted to the columns
the pipeline writes or reads) -/

/-- One `raw_meetings` row (pipeline-relevant columns). -/
structure Meeting where
  id : Nat
  title : Option String := none
  rawJson : Option RawMeetingData := none
  classification : Option Classification := none
  processedAt : Option Nat := none
deriving DecidableEq

/-- One `companies` row. -/
structure CompanyRow where
  id : Nat
  name : String
  firstSeenDate : Option Nat
deriving DecidableEq

/-- One `team_members` row. -/
structure TeamMemberRow where
  id : Nat
  name : String
  email : String
deriving DecidableEq

/-- One `prospect_contacts` row. -/
structure ProspectRow where
  id : Nat
  name : String
  role : Option String
  companyId : Nat
deriving DecidableEq

/-- One `objections` vocabulary row. -/
structure ObjectionRow where
  id : Nat
  typeKey : String
deriving DecidableEq

/-- One `technologies` vocabulary row. -/
structure TechnologyRow where
  id : Nat
  name : String
deriving DecidableEq

/-- One `calls` row. -/
structure CallRow where
  id : Nat
  rawMeetingId : Nat
  callType : String
  offeringPitched : String
  companyId : Nat
  callOutcome : String
  dealSize : Option String
  callQualityScore : Int
  qualityRationale : String
  transcriptText : Option String
  summaryText : Option String
  firefliesUrl : Option String
  date : Option Nat
  duration : Option Nat
deriving DecidableEq

/-- One `call_objections` row (the random UUID primary key is omitted). -/
structure CallObjectionRow where
  callId : Nat
  objectionId : Nat
  quote : Option String
  context : Option String
deriving DecidableEq

/-- One `call_technologies` row. -/
structure CallTechnologyRow where
  callId : Nat
  technologyId : Nat
deriving DecidableEq

/-- One `call_team_members` row. -/
structure CallTeamMemberRow where
  callId : Nat
  teamMemberId : Nat
deriving DecidableEq

/-- One `call_prospect_contacts` row. -/
structure CallProspectRow where
  callId : Nat
  prospectContactId : Nat
deriving DecidableEq

/-- One `call_follow_ups` row. -/
structure FollowUpRow where
  callId : Nat
  actionText : String
  assignedTo : Option String
deriving DecidableEq

/-- One `prospect_questions` row. -/
structure QuestionRow where
  callId : Nat
  questionText : String
deriving DecidableEq

/-- One `key_quotes` row. -/
structure KeyQuoteRow where
  callId : Nat
  speaker : Option String
  quoteText : String
  context : Option String
deriving DecidableEq

/-- One `counter_responses` row. -/
structure CounterResponseRow where
  objectionId : Nat
  callId : Nat
  responseText : String
  outcome : Option String
deriving DecidableEq

/-- The relational store.  `nextId` determinizes the fresh primary keys the
database assigns on insert; `now` stands for the wall clock (`new Date()` /
`Date.now()`), fixed for the run. -/
structure Store where
  meetings : List Meeting := []
  companies : List CompanyRow := []
  teamMembers : List TeamMemberRow := []
  prospects : List ProspectRow := []
  objections : List ObjectionRow := []
  technologies : List TechnologyRow := []
  calls : List CallRow := []
  callObjections : List CallObjectionRow := []
  callTechnologies : List CallTechnologyRow := []
  callTeamMembers : List CallTeamMemberRow := []
  callProspects : List CallProspectRow := []
  callFollowUps : List FollowUpRow := []
  questions : List QuestionRow := []
  keyQuotes : List KeyQuoteRow := []
  counterResponses : List CounterResponseRow := []
  nextId : Nat := 0
  now : Nat := 0
deriving DecidableEq

/-! ## Entity resolvers and vocabulary lookups (src/scripts/pipeline) -/

/-- `getOrCreateCompany`: trim the name; empty or literally `"Unknown"`
gets a fresh placeholder row; otherwise look up by exact name and create
if absent.  Returns the company id and the updated store. -/
def getOrCreateCompany (st : Store) (name : String) (date : Option Nat) :
    Nat × Store :=
  let normalized := trimStr name
  if normalized = "" ∨ normalized = "Unknown" then
    (st.nextId,
     { st with
        companies :=
          st.companies ++ [⟨st.nextId, "Unknown-" ++ toString st.now, some (date.getD st.now)⟩],
        nextId := st.nextId + 1 })
  else
    match st.companies.find? fun c => c.name = normalized with
    | some c => (c.id, st)
    | none =>
      (st.nextId,
       { st with
          companies := st.companies ++ [⟨st.nextId, normalized, some (date.getD st.now)⟩],
          nextId := st.nextId + 1 })

/-- The placeholder email `getOrCreateTeamMember` synthesizes from a name:
`name.trim().toLowerCase().replace(whitespace runs, ".").replace(non [a-z.], "")`,
`"unknown"` when that slug is empty, at the internal domain. -/
def collapseWsToDots : List Char → List Char
  | [] => []
  | [c] => if wsChar c then ['.'] else [c]
  | c1 :: c2 :: rest =>
    if wsChar c1 then
      if wsChar c2 then collapseWsToDots (c2 :: rest)
      else '.' :: collapseWsToDots (c2 :: rest)
    else c1 :: collapseWsToDots (c2 :: rest)

/-- The slug derived from a team-member name. -/
def slugOfName (name : String) : String :=
  ⟨(collapseWsToDots (lowerStr (trimStr name)).data).filter
      fun c => ('a' ≤ c ∧ c ≤ 'z') ∨ c = '.'⟩

/-- The synthesized placeholder email: a function of the name alone. -/
def placeholderEmailFor (name : String) : String :=
  let slug := slugOfName name
  (if slug = "" then "unknown" else slug) ++ "@" ++ SHERLOCK_DOMAIN

/-- `getOrCreateTeamMember`: resolve by normalized email; when the email is
missing or has no `@`, resolve by the synthesized placeholder email. -/
def getOrCreateTeamMember (st : Store) (name : String) (email : Option String) :
    Nat × Store :=
  let normalizedEmail := lowerStr (trimStr (email.getD ""))
  if normalizedEmail = "" ∨ containsSub normalizedEmail "@" = false then
    let pe := placeholderEmailFor name
    match st.teamMembers.find? fun r => r.email = pe with
    | some r => (r.id, st)
    | none =>
      (st.nextId,
       { st with
          teamMembers :=
            st.teamMembers ++
              [⟨st.nextId, if trimStr name = "" then "Unknown" else trimStr name, pe⟩],
          nextId := st.nextId + 1 })
  else
    match st.teamMembers.find? fun r => r.email = normalizedEmail with
    | some r => (r.id, st)
    | none =>
      (st.nextId,
       { st with
          teamMembers := st.teamMembers ++ [⟨st.nextId, trimStr name, normalizedEmail⟩],
          nextId := st.nextId + 1 })

/-- `getOrCreateProspectContact`: resolve by exact trimmed name only. -/
def getOrCreateProspectContact (st : Store) (name : String) (role : Option String)
    (companyId : Nat) : Nat × Store :=
  match st.prospects.find? fun p => p.name = trimStr name with
  | some p => (p.id, st)
  | none =>
    (st.nextId,
     { st with
        prospects := st.prospects ++ [⟨st.nextId, trimStr name, jsNull role, companyId⟩],
        nextId := st.nextId + 1 })

/-- `getObjectionId`: look up a seeded objection by its type key. -/
def getObjectionId (st : Store) (typeKey : String) : Option Nat :=
  (st.objections.find? fun o => o.typeKey = typeKey).map ObjectionRow.id

/-- `getTechnologyId`: look up a seeded technology by name. -/
def getTechnologyId (st : Store) (name : String) : Option Nat :=
  (st.technologies.find? fun t => t.name = name).map TechnologyRow.id

/-! ## Store writer (`storeExtraction`) -/

/-- The `summaryText` column value:
`rawData.summary?.overview || rawData.summary?.short_summary || null`. -/
def summaryTextOf (rawData : RawMeetingData) : Option String :=
  match jsNull (rawData.summary.bind SummaryData.overview) with
  | some s => some s
  | none => jsNull (rawData.summary.bind SummaryData.short_summary)

/-- The `duration` column value: `rawData.duration ? Math.round(...) : null`
(a `0` duration is falsy; rounding is the identity on the modelled `Nat`). -/
def durationOf (rawData : RawMeetingData) : Option Nat :=
  match rawData.duration with
  | some d => if d = 0 then none else some d
  | none => none

/-- The `calls` row inserted by `storeExtraction` (step 2). -/
def mkCallRow (callId rawMeetingId : Nat) (rawData : RawMeetingData)
    (e : ExtractionResult) (companyId : Nat) : CallRow where
  id := callId
  rawMeetingId := rawMeetingId
  callType := e.call_type
  offeringPitched := e.offering_pitched
  companyId := companyId
  callOutcome := e.call_outcome
  dealSize := e.deal_size
  callQualityScore := e.call_quality_score
  qualityRationale := e.quality_rationale
  transcriptText := jsNull rawData.transcript_text
  summaryText := summaryTextOf rawData
  firefliesUrl := jsNull rawData.transcript_url
  date := rawData.date
  duration := durationOf rawData

/-- Step 3 of `storeExtraction`: resolve and link team members
(the source's `for` loop, as tail recursion over the items). -/
def linkTeamMembers (st : Store) (callId : Nat) : List TeamMemberItem → Store
  | [] => st
  | tm :: rest =>
    let r := getOrCreateTeamMember st tm.name tm.email
    linkTeamMembers { r.2 with callTeamMembers := r.2.callTeamMembers ++ [⟨callId, r.1⟩] }
      callId rest

/-- Step 4 of `storeExtraction`: resolve and link prospect contacts. -/
def linkProspects (st : Store) (callId companyId : Nat) : List ProspectItem → Store
  | [] => st
  | pc :: rest =>
    let r := getOrCreateProspectContact st pc.name pc.role companyId
    linkProspects { r.2 with callProspects := r.2.callProspects ++ [⟨callId, r.1⟩] }
      callId companyId rest

/-- Step 5 of `storeExtraction`: link seeded technologies, silently dropping
names with no vocabulary row. -/
def linkTechnologies (st : Store) (callId : Nat) : List String → Store
  | [] => st
  | tech :: rest =>
    match getTechnologyId st tech with
    | some tid =>
      linkTechnologies { st with callTechnologies := st.callTechnologies ++ [⟨callId, tid⟩] }
        callId rest
    | none => linkTechnologies st callId rest

/-- Step 6 of `storeExtraction`: link seeded objections, silently dropping
type keys with no vocabulary row. -/
def linkObjections (st : Store) (callId : Nat) : List ObjectionItem → Store
  | [] => st
  | o :: rest =>
    match getObjectionId st o.type_key with
    | some oid =>
      linkObjections
        { st with
           callObjections :=
             st.callObjections ++ [⟨callId, oid, jsNull o.quote, jsNull o.context⟩] }
        callId rest
    | none => linkObjections st callId rest

/-- Step 7 of `storeExtraction`: insert follow-up actions. -/
def insertFollowUps (st : Store) (callId : Nat) : List FollowUpItem → Store
  | [] => st
  | fu :: rest =>
    insertFollowUps
      { st with
         callFollowUps := st.callFollowUps ++ [⟨callId, fu.action_text, jsNull fu.assigned_to⟩] }
      callId rest

/-- Step 8 of `storeExtraction`: insert non-blank prospect questions. -/
def insertQuestions (st : Store) (callId : Nat) : List String → Store
  | [] => st
  | q :: rest =>
    if q ≠ "" ∧ trimStr q ≠ "" then
      insertQuestions { st with questions := st.questions ++ [⟨callId, trimStr q⟩] }
        callId rest
    else insertQuestions st callId rest

/-- Step 9 of `storeExtraction`: insert key quotes. -/
def insertKeyQuotes (st : Store) (callId : Nat) : List QuoteItem → Store
  | [] => st
  | kq :: rest =>
    insertKeyQuotes
      { st with
         keyQuotes :=
           st.keyQuotes ++ [⟨callId, jsNull kq.speaker, kq.quote_text, jsNull kq.context⟩] }
      callId rest

/-- Step 10 of `storeExtraction`: insert counter-responses whose objection
key resolves, silently dropping the rest. -/
def linkCounterResponses (st : Store) (callId : Nat) : List CounterItem → Store
  | [] => st
  | cr :: rest =>
    match getObjectionId st cr.objection_type_key with
    | some oid =>
      linkCounterResponses
        { st with
           counterResponses :=
             st.counterResponses ++ [⟨oid, callId, cr.response_text, jsNull cr.outcome⟩] }
        callId rest
    | none => linkCounterResponses st callId rest

/-- `storeExtraction`: materialize one normalized extraction result. -/
def storeExtraction (st : Store) (rawMeetingId : Nat) (rawData : RawMeetingData)
    (e : ExtractionResult) : Store :=
  let meetingDate := rawData.date
  let r := getOrCreateCompany st e.company_name meetingDate
  let companyId := r.1
  let st := r.2
  let callId := st.nextId
  let st :=
    { st with
       calls := st.calls ++ [mkCallRow callId rawMeetingId rawData e companyId],
       nextId := st.nextId + 1 }
  let st := linkTeamMembers st callId e.team_members
  let st := linkProspects st callId companyId e.prospect_names
  let st := linkTechnologies st callId e.tech_stack
  let st := linkObjections st callId e.objections
  let st := insertFollowUps st callId e.follow_up_actions
  let st := insertQuestions st callId e.prospect_questions
  let st := insertKeyQuotes st callId e.key_quotes
  let st := linkCounterResponses st callId e.counter_responses
  st

/-! ## Pipeline driver (`main`) -/

/-- The per-record behavior of the external LLM service.  `classifyLLM`
is the classification model's response text (`none`: the call threw);
`extract` is the extraction model's response once parsed as JSON
(`none`: the call threw or the response did not parse as JSON after
fence stripping). -/
structure Behavior where
  classifyLLM : Option String := none
  extract : Option RawExtraction := none

/-- The running counters of `main` (`stats`), plus `extractCalls`, which
instruments how many times `extractSalesCall` was invoked. -/
structure Stats where
  total : Nat := 0
  sales_call : Nat := 0
  partner_call : Nat := 0
  internal : Nat := 0
  other : Nat := 0
  extracted : Nat := 0
  extractionErrors : Nat := 0
  extractCalls : Nat := 0
deriving DecidableEq

/-- `stats[classification]++`. -/
def tallyClass (stats : Stats) : Classification → Stats
  | .sales_call => { stats with sales_call := stats.sales_call + 1 }
  | .partner_call => { stats with partner_call := stats.partner_call + 1 }
  | .internal => { stats with internal := stats.internal + 1 }
  | .other => { stats with other := stats.other + 1 }

/-- Step 1 of the per-record procedure: `classifyMeeting` under the driver's
catch-all (`classification = "other"` when it throws). -/
def driverClassification (env : Nat → Behavior) (m : Meeting) : Classification :=
  match classifyMeetingRun (m.rawJson.getD {}) (env m.id).classifyLLM with
  | some r => r.1
  | none => .other

/-- `db.update(rawMeetings).set({classification}).where(eq(id))`. -/
def setClassification (ms : List Meeting) (i : Nat) (c : Classification) : List Meeting :=
  ms.map fun m => if m.id = i then { m with classification := some c } else m

/-- `db.update(rawMeetings).set({processedAt}).where(eq(id))`. -/
def setProcessedAt (ms : List Meeting) (i : Nat) (t : Nat) : List Meeting :=
  ms.map fun m => if m.id = i then { m with processedAt := some t } else m

/-- The body of the driver loop for one backlog record: classify (with the
catch-all), persist the classification, extract-and-store for sales calls
with an adequate transcript (extraction and write failures caught and
counted), then unconditionally mark the record processed. -/
def processRecord (env : Nat → Behavior) (p : Store × Stats) (m : Meeting) :
    Store × Stats :=
  let st := p.1
  let rawData := m.rawJson.getD {}
  let classification := driverClassification env m
  let stats := tallyClass p.2 classification
  let st := { st with meetings := setClassification st.meetings m.id classification }
  let q :=
    if classification = .sales_call then
      let transcript := jsOr rawData.transcript_text ""
      if transcript = "" ∨ transcript.length < 50 then
        (st, stats)
      else
        match (env m.id).extract with
        | some raw =>
          let extraction := normalizeResult raw
          let st := storeExtraction st m.id rawData extraction
          (st, { stats with
                  extracted := stats.extracted + 1,
                  extractCalls := stats.extractCalls + 1 })
        | none =>
          (st, { stats with
                  extractionErrors := stats.extractionErrors + 1,
                  extractCalls := stats.extractCalls + 1 })
    else (st, stats)
  ({ q.1 with meetings := setProcessedAt q.1.meetings m.id q.1.now }, q.2)

/-- The backlog query: `select().from(rawMeetings).where(isNull(processedAt))`. -/
def selectUnprocessed (st : Store) : List Meeting :=
  st.meetings.filter fun m => m.processedAt = none

/-- `main`: snapshot the backlog, then process each record in order. -/
def runPipeline (env : Nat → Behavior) (st : Store) : Store × Stats :=
  let unprocessed := selectUnprocessed st
  unprocessed.foldl (processRecord env) (st, { total := unprocessed.length })

/-! ## Generic list helpers -/

/-- Compose two `Forall₂` facts along a middle list. -/
theorem forall₂_compose {α : Type} {R S T : α → α → Prop} :
    ∀ {l1 l2 l3 : List α}, List.Forall₂ R l1 l2 → List.Forall₂ S l2 l3 →
      (∀ a b c, R a b → S b c → T a c) → List.Forall₂ T l1 l3 := by
  intro l1 l2 l3 h1
  induction h1 generalizing l3 with
  | nil => intro h2 _; cases h2; exact List.Forall₂.nil
  | cons hab htl ih =>
    intro h2 hcomp
    cases h2 with
    | cons hbc htl2 => exact List.Forall₂.cons (hcomp _ _ _ hab hbc) (ih htl2 hcomp)

/-- Strengthen a `Forall₂` pointwise, using membership of the left element. -/
theorem forall₂_imp_mem {α β : Type} {R S : α → β → Prop} :
    ∀ {l1 : List α} {l2 : List β}, List.Forall₂ R l1 l2 →
      (∀ a ∈ l1, ∀ b, R a b → S a b) → List.Forall₂ S l1 l2 := by
  intro l1 l2 h
  induction h with
  | nil => intro _; exact List.Forall₂.nil
  | cons hab _ ih =>
    intro himp
    exact List.Forall₂.cons (himp _ (List.mem_cons_self _ _) _ hab)
      (ih fun a ha b hr => himp a (List.mem_cons_of_mem _ ha) b hr)

/-- Every element of the right list of a `Forall₂` has a related partner. -/
theorem forall₂_mem_right {α β : Type} {R : α → β → Prop} :
    ∀ {l1 : List α} {l2 : List β}, List.Forall₂ R l1 l2 →
      ∀ b ∈ l2, ∃ a ∈ l1, R a b := by
  intro l1 l2 h
  induction h with
  | nil => intro b hb; cases hb
  | cons hab _ ih =>
    intro b hb
    rcases List.mem_cons.mp hb with h1 | h2
    · exact ⟨_, List.mem_cons_self _ _, h1 ▸ hab⟩
    · obtain ⟨a, ha, hr⟩ := ih b h2
      exact ⟨a, List.mem_cons_of_mem _ ha, hr⟩

/-- `find?` over an append whose first part yields nothing. -/
theorem find?_append_of_none {α : Type} {p : α → Bool} :
    ∀ {l1 : List α} (l2 : List α), l1.find? p = none →
      (l1 ++ l2).find? p = l2.find? p := by
  intro l1
  induction l1 with
  | nil => intro l2 _; rfl
  | cons a l ih =>
    intro l2 h
    rw [List.find?_cons] at h
    rcases hp : p a with _ | _
    · rw [List.cons_append, List.find?_cons_of_neg _ (by simp [hp]),
        ih l2 (by rwa [hp] at h)]
    · rw [hp] at h; cases h

/-! ## Normalization facts -/

/-- Claim C4: the normalized `call_quality_score` always lies in `[1, 10]`;
an absent or non-numeric score field defaults to `5`, and a numeric score
`n` is clamped to `min 10 (max 1 n)`. -/
theorem call_quality_score_clamped (raw : RawExtraction) :
    (1 ≤ (normalizeResult raw).call_quality_score ∧
      (normalizeResult raw).call_quality_score ≤ 10)
    ∧ (normalizeResult { raw with call_quality_score := .absent }).call_quality_score = 5
    ∧ (normalizeResult { raw with call_quality_score := .nonNumber }).call_quality_score = 5
    ∧ ∀ n : Int,
        (normalizeResult { raw with call_quality_score := .num n }).call_quality_score =
          min 10 (max 1 n) := by
  refine ⟨?_, rfl, rfl, fun n => rfl⟩
  rcases h : raw.call_quality_score with n | _ | _ <;>
    simp only [normalizeResult, h] <;> constructor <;> omega

/-- Claim C3: the LLM tier runs at most once and only when the rule tier is
inconclusive; a rule-tier category is returned with zero LLM calls (and
does not depend on the LLM at all); the LLM response is decoded from its
cleaned token, any unrecognized token falling back to `other`. -/
theorem classifier_llm_called_at_most_once (data : RawMeetingData) (r : String) :
    (∀ c, classifyByRules data = some c →
      classifyMeetingRun data (some r) = some (c, 0) ∧
        classifyMeetingRun data none = some (c, 0))
    ∧ (classifyByRules data = none →
        classifyMeetingRun data (some r) = some (classifyByLLMText r, 1))
    ∧ (∀ c n, classifyMeetingRun data (some r) = some (c, n) → n ≤ 1)
    ∧ (classificationOfToken (cleanLLMResponse r) = none → classifyByLLMText r = .other)
    ∧ (∀ c, classificationOfToken (cleanLLMResponse r) = some c → classifyByLLMText r = c) := by
  refine ⟨?_, ?_, ?_, ?_, ?_⟩
  · intro c h
    unfold classifyMeetingRun
    rw [h]
    exact ⟨rfl, rfl⟩
  · intro h
    unfold classifyMeetingRun
    rw [h]
    rfl
  · intro c n h
    unfold classifyMeetingRun at h
    rcases hr : classifyByRules data with _ | c'
    · rw [hr] at h
      simp only [Option.map] at h
      injection h with h2
      injection h2 with hc hn
      omega
    · rw [hr] at h
      injection h with h2
      injection h2 with hc hn
      omega
  · intro h
    unfold classifyByLLMText
    rw [h]
    rfl
  · intro c h
    unfold classifyByLLMText
    rw [h]
    rfl

/-- Witness for C3: a meeting with no emails and no summary text is
ambiguous, one LLM response decides it, and an unrecognized response
falls back to `other`. -/
theorem classifier_llm_called_at_most_once_check :
    classifyByRules {} = none
    ∧ classifyMeetingRun {} (some " SALES_CALL! ") = some (.sales_call, 1)
    ∧ classifyByLLMText "totally invalid answer" = .other := by
  have h := classifier_llm_called_at_most_once {} " SALES_CALL! "
  refine ⟨by decide, ?_, ?_⟩
  · rw [h.2.1 (by decide)]
    decide
  · exact (classifier_llm_called_at_most_once {} "totally invalid answer").2.2.2.1
      (by decide)

/-! ## Internal-only rule (C7) -/

/-- A meeting with no participant emails at all and a sales-flavored title. -/
def emptyEmailMeeting : RawMeetingData := { title := some "Audit pricing proposal" }

/-- Counterexample to claim C7 as stated: on a meeting whose collected
email set is EMPTY (so vacuously every address is internal-domain), the
rule tier does not return `internal` — the `sherlockEmails.length > 0`
guard fails and text analysis runs, here yielding `sales_call`. -/
theorem internal_rule_empty_emails_cex :
    getAllEmails emptyEmailMeeting = []
    ∧ (∀ e ∈ getAllEmails emptyEmailMeeting, strEndsWith e ("@" ++ SHERLOCK_DOMAIN) = true)
    ∧ classifyByRules emptyEmailMeeting ≠ some .internal
    ∧ classifyByRules emptyEmailMeeting = some .sales_call := by decide

/-- Claim C7 (amended): when the collected email set is nonempty and every
address ends in the internal domain, the rule tier returns `internal`
immediately, with no text analysis; an empty email set instead falls
through to text analysis. -/
theorem internal_rule_nonempty_all_internal (data : RawMeetingData)
    (hne : getAllEmails data ≠ [])
    (hall : ∀ e ∈ getAllEmails data, strEndsWith e ("@" ++ SHERLOCK_DOMAIN) = true) :
    classifyByRules data = some .internal := by
  have h1 : (getAllEmails data).filter
      (fun e => strEndsWith e ("@" ++ SHERLOCK_DOMAIN)) = getAllEmails data :=
    List.filter_eq_self.mpr hall
  have h2 : (getAllEmails data).filter
      (fun e => !strEndsWith e ("@" ++ SHERLOCK_DOMAIN)) = [] :=
    List.filter_eq_nil_iff.mpr (by intro e he; simp [hall e he])
  simp only [classifyByRules]
  rw [h1, h2]
  rw [if_pos ⟨List.length_pos.mpr hne, rfl⟩]

/-- Witness for the amended C7 at a concrete single-participant meeting. -/
theorem internal_rule_nonempty_all_internal_check :
    getAllEmails { host_email := some "Ops@Sherlock.xyz" } ≠ []
    ∧ classifyByRules { host_email := some "Ops@Sherlock.xyz" } = some .internal :=
  ⟨by decide, internal_rule_nonempty_all_internal _ (by decide) (by decide)⟩

/-! ## Placeholder team-member identity (C6) -/

/-- The placeholder branch condition of `getOrCreateTeamMember`: the
normalized email is empty or contains no `@`. -/
@[reducible] def missingEmail (email : Option String) : Prop :=
  lowerStr (trimStr (email.getD "")) = ""
    ∨ containsSub (lowerStr (trimStr (email.getD ""))) "@" = false

/-- On the placeholder branch, when a row with the placeholder email
exists, `getOrCreateTeamMember` returns its id and leaves the store as-is. -/
theorem getOrCreateTeamMember_missing_found (st : Store) (name : String)
    (e : Option String) (r : TeamMemberRow) (h : missingEmail e)
    (hf : st.teamMembers.find? (fun x => x.email = placeholderEmailFor name) = some r) :
    getOrCreateTeamMember st name e = (r.id, st) := by
  simp only [getOrCreateTeamMember]
  rw [if_pos h, hf]

/-- On the placeholder branch, when no row with the placeholder email
exists, `getOrCreateTeamMember` inserts one carrying that email. -/
theorem getOrCreateTeamMember_missing_new (st : Store) (name : String)
    (e : Option String) (h : missingEmail e)
    (hf : st.teamMembers.find? (fun x => x.email = placeholderEmailFor name) = none) :
    getOrCreateTeamMember st name e =
      (st.nextId,
       { st with
          teamMembers :=
            st.teamMembers ++
              [⟨st.nextId, if trimStr name = "" then "Unknown" else trimStr name,
                placeholderEmailFor name⟩],
          nextId := st.nextId + 1 }) := by
  simp only [getOrCreateTeamMember]
  rw [if_pos h, hf]

/-- Claim C6: with a missing or `@`-less email, resolution keys on the
placeholder email, a deterministic function of the name alone, so the
result is independent of the bad email value, and resolving the same name
a second time in the resulting store returns the same identity and leaves
the store unchanged. -/
theorem placeholder_resolution_deterministic (st : Store) (name : String)
    (e1 e2 : Option String) (h1 : missingEmail e1) (h2 : missingEmail e2) :
    getOrCreateTeamMember st name e1 = getOrCreateTeamMember st name e2
    ∧ getOrCreateTeamMember (getOrCreateTeamMember st name e1).2 name e2 =
        getOrCreateTeamMember st name e1 := by
  have hsame : getOrCreateTeamMember st name e1 = getOrCreateTeamMember st name e2 := by
    simp only [getOrCreateTeamMember]
    rw [if_pos h1, if_pos h2]
  refine ⟨hsame, ?_⟩
  rcases hf : st.teamMembers.find? (fun x => x.email = placeholderEmailFor name) with _ | r
  · rw [getOrCreateTeamMember_missing_new st name e1 h1 hf]
    rw [getOrCreateTeamMember_missing_found _ name e2
      ⟨st.nextId, if trimStr name = "" then "Unknown" else trimStr name,
        placeholderEmailFor name⟩ h2
      (by
        show (st.teamMembers ++
            [(⟨st.nextId, if trimStr name = "" then "Unknown" else trimStr name,
              placeholderEmailFor name⟩ : TeamMemberRow)]).find?
            (fun x => x.email = placeholderEmailFor name) = _
        rw [find?_append_of_none _ hf]
        simp [List.find?])]
  · rw [getOrCreateTeamMember_missing_found st name e1 r h1 hf]
    rw [getOrCreateTeamMember_missing_found _ name e2 r h2 hf]

/-- Witness for C6: resolving "Jane Doe" twice with two different invalid
emails, starting from an empty store. -/
theorem placeholder_resolution_deterministic_check :
    missingEmail (none : Option String)
    ∧ missingEmail (some "n/a")
    ∧ placeholderEmailFor "Jane Doe" = "jane.doe@sherlock.xyz"
    ∧ getOrCreateTeamMember ({} : Store) "Jane Doe" none =
        getOrCreateTeamMember {} "Jane Doe" (some "n/a")
    ∧ getOrCreateTeamMember (getOrCreateTeamMember ({} : Store) "Jane Doe" none).2
        "Jane Doe" (some "n/a") = getOrCreateTeamMember {} "Jane Doe" none := by
  have h := placeholder_resolution_deterministic {} "Jane Doe" none (some "n/a")
    (by decide) (by decide)
  exact ⟨by decide, by decide, by decide, h.1, h.2⟩

/-! ## Extraction request truncation (C8) -/

/-- Splitting a string at a take boundary. -/
theorem strTake_append_drop (s : String) (n : Nat) :
    strTake s n ++ (⟨s.data.drop n⟩ : String) = s := by
  show String.mk (s.data.take n ++ s.data.drop n) = s
  rw [List.take_append_drop]

/-- String length distributes over append. -/
theorem strLength_append (a b : String) : (a ++ b).length = a.length + b.length := by
  show (a.data ++ b.data).length = a.data.length + b.data.length
  exact List.length_append _ _

/-- Claim C8: when the combined context-plus-transcript text exceeds the
100000-character ceiling, the body sent is exactly its first 100000
characters (a prefix, cut only from the end) followed by the truncation
marker; texts at or below the ceiling are sent unchanged; and the full
request always starts with the intact instruction prompt. -/
theorem extraction_truncation_deterministic (title : String) (summary : Option String)
    (transcript : String) :
    ((buildUserContent title summary transcript).length > TRUNCATION_LIMIT →
      truncateForModel (buildUserContent title summary transcript) =
        strTake (buildUserContent title summary transcript) TRUNCATION_LIMIT ++
          TRUNCATION_MARKER
      ∧ ∃ rest, buildUserContent title summary transcript =
          strTake (buildUserContent title summary transcript) TRUNCATION_LIMIT ++ rest)
    ∧ ((buildUserContent title summary transcript).length ≤ TRUNCATION_LIMIT →
        truncateForModel (buildUserContent title summary transcript) =
          buildUserContent title summary transcript)
    ∧ ∃ rest, extractionRequestText title summary transcript = EXTRACTION_PROMPT ++ rest := by
  refine ⟨?_, ?_, ⟨_, rfl⟩⟩
  · intro h
    exact ⟨by rw [truncateForModel, if_pos h],
      ⟨⟨(buildUserContent title summary transcript).data.drop TRUNCATION_LIMIT⟩,
        (strTake_append_drop _ _).symm⟩⟩
  · intro h
    rw [truncateForModel, if_neg (by omega)]

/-- The over-limit transcript used by the C8 witness. -/
def bigTranscript : String := ⟨List.replicate 100001 'a'⟩

/-- Witness for C8 at a 100001-character transcript. -/
theorem extraction_truncation_deterministic_check :
    (buildUserContent "" none bigTranscript).length > TRUNCATION_LIMIT
    ∧ truncateForModel (buildUserContent "" none bigTranscript) =
        strTake (buildUserContent "" none bigTranscript) TRUNCATION_LIMIT ++
          TRUNCATION_MARKER := by
  have hbuild : buildUserContent "" none bigTranscript =
      "\nTranscript:\n" ++ bigTranscript := rfl
  have hlen : (buildUserContent "" none bigTranscript).length > TRUNCATION_LIMIT := by
    rw [hbuild, strLength_append]
    have h1 : ("\nTranscript:\n" : String).length = 13 := rfl
    have h2 : bigTranscript.length = 100001 := by
      have hb : bigTranscript.length = (List.replicate 100001 'a').length := rfl
      rw [hb, List.length_replicate]
    rw [h1, h2]
    norm_num [TRUNCATION_LIMIT]
  exact ⟨hlen, ((extraction_truncation_deterministic "" none bigTranscript).1 hlen).1⟩

/-! ## Frame lemmas for the store writer -/

/-- Projections never touched by the resolvers and link writers: the
meeting rows, the clock and the two closed vocabularies. -/
def CoreFrame (st st' : Store) : Prop :=
  st'.meetings = st.meetings ∧ st'.now = st.now ∧
  st'.objections = st.objections ∧ st'.technologies = st.technologies

/-- `CoreFrame` plus the calls table and the three claim-relevant join
tables. -/
def WideFrame (st st' : Store) : Prop :=
  CoreFrame st st' ∧ st'.calls = st.calls ∧ st'.callObjections = st.callObjections ∧
  st'.callTechnologies = st.callTechnologies ∧ st'.counterResponses = st.counterResponses

theorem wideFrame_refl (st : Store) : WideFrame st st :=
  ⟨⟨rfl, rfl, rfl, rfl⟩, rfl, rfl, rfl, rfl⟩

theorem coreFrame_trans {a b c : Store} (h1 : CoreFrame a b) (h2 : CoreFrame b c) :
    CoreFrame a c :=
  ⟨h2.1.trans h1.1, h2.2.1.trans h1.2.1, h2.2.2.1.trans h1.2.2.1, h2.2.2.2.trans h1.2.2.2⟩

theorem wideFrame_trans {a b c : Store} (h1 : WideFrame a b) (h2 : WideFrame b c) :
    WideFrame a c :=
  ⟨coreFrame_trans h1.1 h2.1, h2.2.1.trans h1.2.1, h2.2.2.1.trans h1.2.2.1,
   h2.2.2.2.1.trans h1.2.2.2.1, h2.2.2.2.2.trans h1.2.2.2.2⟩

theorem getOrCreateCompany_wide (st : Store) (name : String) (d : Option Nat) :
    WideFrame st (getOrCreateCompany st name d).2 := by
  simp only [getOrCreateCompany, WideFrame, CoreFrame]
  split
  · exact ⟨⟨rfl, rfl, rfl, rfl⟩, rfl, rfl, rfl, rfl⟩
  · split <;> exact ⟨⟨rfl, rfl, rfl, rfl⟩, rfl, rfl, rfl, rfl⟩

theorem getOrCreateTeamMember_wide (st : Store) (name : String) (email : Option String) :
    WideFrame st (getOrCreateTeamMember st name email).2 := by
  simp only [getOrCreateTeamMember, WideFrame, CoreFrame]
  split <;> split <;> exact ⟨⟨rfl, rfl, rfl, rfl⟩, rfl, rfl, rfl, rfl⟩

theorem getOrCreateProspectContact_wide (st : Store) (name : String)
    (role : Option String) (companyId : Nat) :
    WideFrame st (getOrCreateProspectContact st name role companyId).2 := by
  simp only [getOrCreateProspectContact, WideFrame, CoreFrame]
  split <;> exact ⟨⟨rfl, rfl, rfl, rfl⟩, rfl, rfl, rfl, rfl⟩

theorem linkTeamMembers_wide (cid : Nat) (items : List TeamMemberItem) :
    ∀ st : Store, WideFrame st (linkTeamMembers st cid items) := by
  induction items with
  | nil => intro st; exact wideFrame_refl st
  | cons tm rest ih =>
    intro st
    simp only [linkTeamMembers]
    exact wideFrame_trans
      (wideFrame_trans (getOrCreateTeamMember_wide st tm.name tm.email)
        ⟨⟨rfl, rfl, rfl, rfl⟩, rfl, rfl, rfl, rfl⟩)
      (ih _)

theorem linkProspects_wide (cid pid : Nat) (items : List ProspectItem) :
    ∀ st : Store, WideFrame st (linkProspects st cid pid items) := by
  induction items with
  | nil => intro st; exact wideFrame_refl st
  | cons pc rest ih =>
    intro st
    simp only [linkProspects]
    exact wideFrame_trans
      (wideFrame_trans (getOrCreateProspectContact_wide st pc.name pc.role pid)
        ⟨⟨rfl, rfl, rfl, rfl⟩, rfl, rfl, rfl, rfl⟩)
      (ih _)

theorem insertFollowUps_wide (cid : Nat) (fus : List FollowUpItem) :
    ∀ st : Store, WideFrame st (insertFollowUps st cid fus) := by
  induction fus with
  | nil => intro st; exact wideFrame_refl st
  | cons fu rest ih =>
    intro st
    simp only [insertFollowUps]
    exact wideFrame_trans ⟨⟨rfl, rfl, rfl, rfl⟩, rfl, rfl, rfl, rfl⟩ (ih _)

theorem insertQuestions_wide (cid : Nat) (qs : List String) :
    ∀ st : Store, WideFrame st (insertQuestions st cid qs) := by
  induction qs with
  | nil => intro st; exact wideFrame_refl st
  | cons q rest ih =>
    intro st
    by_cases h : q ≠ "" ∧ trimStr q ≠ ""
    · simp only [insertQuestions, if_pos h]
      exact wideFrame_trans ⟨⟨rfl, rfl, rfl, rfl⟩, rfl, rfl, rfl, rfl⟩ (ih _)
    · simp only [insertQuestions, if_neg h]
      exact ih _

theorem insertKeyQuotes_wide (cid : Nat) (kqs : List QuoteItem) :
    ∀ st : Store, WideFrame st (insertKeyQuotes st cid kqs) := by
  induction kqs with
  | nil => intro st; exact wideFrame_refl st
  | cons kq rest ih =>
    intro st
    simp only [insertKeyQuotes]
    exact wideFrame_trans ⟨⟨rfl, rfl, rfl, rfl⟩, rfl, rfl, rfl, rfl⟩ (ih _)

theorem getTechnologyId_congr {a b : Store} (h : a.technologies = b.technologies)
    (n : String) : getTechnologyId a n = getTechnologyId b n := by
  unfold getTechnologyId
  rw [h]

theorem getObjectionId_congr {a b : Store} (h : a.objections = b.objections)
    (k : String) : getObjectionId a k = getObjectionId b k := by
  unfold getObjectionId
  rw [h]

theorem linkTechnologies_frame (cid : Nat) (ts : List String) :
    ∀ st : Store,
      CoreFrame st (linkTechnologies st cid ts)
      ∧ (linkTechnologies st cid ts).calls = st.calls
      ∧ (linkTechnologies st cid ts).callObjections = st.callObjections
      ∧ (linkTechnologies st cid ts).counterResponses = st.counterResponses := by
  induction ts with
  | nil => intro st; exact ⟨⟨rfl, rfl, rfl, rfl⟩, rfl, rfl, rfl⟩
  | cons t rest ih =>
    intro st
    rcases hl : getTechnologyId st t with _ | tid <;> simp only [linkTechnologies, hl]
    · exact ih st
    · have h := ih { st with callTechnologies := st.callTechnologies ++ [⟨cid, tid⟩] }
      exact ⟨⟨h.1.1, h.1.2.1, h.1.2.2.1, h.1.2.2.2⟩, h.2.1, h.2.2.1, h.2.2.2⟩

theorem linkTechnologies_content (cid : Nat) (ts : List String) :
    ∀ st : Store,
      (linkTechnologies st cid ts).callTechnologies =
        st.callTechnologies ++
          ts.filterMap fun t =>
            (getTechnologyId st t).map fun tid => (⟨cid, tid⟩ : CallTechnologyRow) := by
  induction ts with
  | nil => intro st; simp [linkTechnologies]
  | cons t rest ih =>
    intro st
    rcases hl : getTechnologyId st t with _ | tid <;> simp only [linkTechnologies, hl]
    · rw [ih st]
      simp [List.filterMap_cons, hl]
    · rw [ih { st with callTechnologies := st.callTechnologies ++ [⟨cid, tid⟩] }]
      show st.callTechnologies ++ [(⟨cid, tid⟩ : CallTechnologyRow)] ++
          (rest.filterMap fun t =>
            (getTechnologyId st t).map fun tid => (⟨cid, tid⟩ : CallTechnologyRow)) = _
      simp [List.filterMap_cons, hl]

theorem linkObjections_frame (cid : Nat) (objs : List ObjectionItem) :
    ∀ st : Store,
      CoreFrame st (linkObjections st cid objs)
      ∧ (linkObjections st cid objs).calls = st.calls
      ∧ (linkObjections st cid objs).callTechnologies = st.callTechnologies
      ∧ (linkObjections st cid objs).counterResponses = st.counterResponses := by
  induction objs with
  | nil => intro st; exact ⟨⟨rfl, rfl, rfl, rfl⟩, rfl, rfl, rfl⟩
  | cons o rest ih =>
    intro st
    rcases hl : getObjectionId st o.type_key with _ | oid <;> simp only [linkObjections, hl]
    · exact ih st
    · have h := ih
        { st with
           callObjections :=
             st.callObjections ++ [⟨cid, oid, jsNull o.quote, jsNull o.context⟩] }
      exact ⟨⟨h.1.1, h.1.2.1, h.1.2.2.1, h.1.2.2.2⟩, h.2.1, h.2.2.1, h.2.2.2⟩

theorem linkObjections_content (cid : Nat) (objs : List ObjectionItem) :
    ∀ st : Store,
      (linkObjections st cid objs).callObjections =
        st.callObjections ++
          objs.filterMap fun o =>
            (getObjectionId st o.type_key).map fun oid =>
              (⟨cid, oid, jsNull o.quote, jsNull o.context⟩ : CallObjectionRow) := by
  induction objs with
  | nil => intro st; simp [linkObjections]
  | cons o rest ih =>
    intro st
    rcases hl : getObjectionId st o.type_key with _ | oid <;> simp only [linkObjections, hl]
    · rw [ih st]
      simp [List.filterMap_cons, hl]
    · rw [ih
        { st with
           callObjections :=
             st.callObjections ++ [⟨cid, oid, jsNull o.quote, jsNull o.context⟩] }]
      show st.callObjections ++
          [(⟨cid, oid, jsNull o.quote, jsNull o.context⟩ : CallObjectionRow)] ++
          (rest.filterMap fun o =>
            (getObjectionId st o.type_key).map fun oid =>
              (⟨cid, oid, jsNull o.quote, jsNull o.context⟩ : CallObjectionRow)) = _
      simp [List.filterMap_cons, hl]

theorem linkCounterResponses_frame (cid : Nat) (crs : List CounterItem) :
    ∀ st : Store,
      CoreFrame st (linkCounterResponses st cid crs)
      ∧ (linkCounterResponses st cid crs).calls = st.calls
      ∧ (linkCounterResponses st cid crs).callObjections = st.callObjections
      ∧ (linkCounterResponses st cid crs).callTechnologies = st.callTechnologies := by
  induction crs with
  | nil => intro st; exact ⟨⟨rfl, rfl, rfl, rfl⟩, rfl, rfl, rfl⟩
  | cons cr rest ih =>
    intro st
    rcases hl : getObjectionId st cr.objection_type_key with _ | oid <;>
      simp only [linkCounterResponses, hl]
    · exact ih st
    · have h := ih
        { st with
           counterResponses :=
             st.counterResponses ++ [⟨oid, cid, cr.response_text, jsNull cr.outcome⟩] }
      exact ⟨⟨h.1.1, h.1.2.1, h.1.2.2.1, h.1.2.2.2⟩, h.2.1, h.2.2.1, h.2.2.2⟩

theorem linkCounterResponses_content (cid : Nat) (crs : List CounterItem) :
    ∀ st : Store,
      (linkCounterResponses st cid crs).counterResponses =
        st.counterResponses ++
          crs.filterMap fun cr =>
            (getObjectionId st cr.objection_type_key).map fun oid =>
              (⟨oid, cid, cr.response_text, jsNull cr.outcome⟩ : CounterResponseRow) := by
  induction crs with
  | nil => intro st; simp [linkCounterResponses]
  | cons cr rest ih =>
    intro st
    rcases hl : getObjectionId st cr.objection_type_key with _ | oid <;>
      simp only [linkCounterResponses, hl]
    · rw [ih st]
      simp [List.filterMap_cons, hl]
    · rw [ih
        { st with
           counterResponses :=
             st.counterResponses ++ [⟨oid, cid, cr.response_text, jsNull cr.outcome⟩] }]
      show st.counterResponses ++
          [(⟨oid, cid, cr.response_text, jsNull cr.outcome⟩ : CounterResponseRow)] ++
          (rest.filterMap fun cr =>
            (getObjectionId st cr.objection_type_key).map fun oid =>
              (⟨oid, cid, cr.response_text, jsNull cr.outcome⟩ : CounterResponseRow)) = _
      simp [List.filterMap_cons, hl]

/-- Combined effect of steps 3-10 of `storeExtraction` on an arbitrary base
store: the core tables and `calls` are untouched, and the three
closed-vocabulary join tables receive exactly the resolvable entries. -/
theorem writerChain_tables (base : Store) (cid clid : Nat) (e : ExtractionResult) :
    ∀ s10 : Store,
      s10 =
        linkCounterResponses
          (insertKeyQuotes
            (insertQuestions
              (insertFollowUps
                (linkObjections
                  (linkTechnologies
                    (linkProspects (linkTeamMembers base clid e.team_members)
                      clid cid e.prospect_names)
                    clid e.tech_stack)
                  clid e.objections)
                clid e.follow_up_actions)
              clid e.prospect_questions)
            clid e.key_quotes)
          clid e.counter_responses →
      CoreFrame base s10
      ∧ s10.calls = base.calls
      ∧ s10.callTechnologies =
          base.callTechnologies ++
            (e.tech_stack.filterMap fun t =>
              (getTechnologyId base t).map fun tid => (⟨clid, tid⟩ : CallTechnologyRow))
      ∧ s10.callObjections =
          base.callObjections ++
            (e.objections.filterMap fun o =>
              (getObjectionId base o.type_key).map fun oid =>
                (⟨clid, oid, jsNull o.quote, jsNull o.context⟩ : CallObjectionRow))
      ∧ s10.counterResponses =
          base.counterResponses ++
            (e.counter_responses.filterMap fun cr =>
              (getObjectionId base cr.objection_type_key).map fun oid =>
                (⟨oid, clid, cr.response_text, jsNull cr.outcome⟩ : CounterResponseRow)) := by
  intro s10 hs10
  subst hs10
  set s3 := linkTeamMembers base clid e.team_members with hs3
  set s4 := linkProspects s3 clid cid e.prospect_names with hs4
  set s5 := linkTechnologies s4 clid e.tech_stack with hs5
  set s6 := linkObjections s5 clid e.objections with hs6
  set s7 := insertFollowUps s6 clid e.follow_up_actions with hs7
  set s8 := insertQuestions s7 clid e.prospect_questions with hs8
  set s9 := insertKeyQuotes s8 clid e.key_quotes with hs9
  have W3 : WideFrame base s3 := by rw [hs3]; exact linkTeamMembers_wide _ _ _
  have W4 : WideFrame s3 s4 := by rw [hs4]; exact linkProspects_wide _ _ _ _
  have F5 : CoreFrame s4 s5 ∧ s5.calls = s4.calls ∧ s5.callObjections = s4.callObjections
      ∧ s5.counterResponses = s4.counterResponses := by
    rw [hs5]; exact linkTechnologies_frame _ _ _
  have C5 : s5.callTechnologies =
      s4.callTechnologies ++
        (e.tech_stack.filterMap fun t =>
          (getTechnologyId s4 t).map fun tid => (⟨clid, tid⟩ : CallTechnologyRow)) := by
    rw [hs5]; exact linkTechnologies_content _ _ _
  have F6 : CoreFrame s5 s6 ∧ s6.calls = s5.calls ∧ s6.callTechnologies = s5.callTechnologies
      ∧ s6.counterResponses = s5.counterResponses := by
    rw [hs6]; exact linkObjections_frame _ _ _
  have C6 : s6.callObjections =
      s5.callObjections ++
        (e.objections.filterMap fun o =>
          (getObjectionId s5 o.type_key).map fun oid =>
            (⟨clid, oid, jsNull o.quote, jsNull o.context⟩ : CallObjectionRow)) := by
    rw [hs6]; exact linkObjections_content _ _ _
  have W7 : WideFrame s6 s7 := by rw [hs7]; exact insertFollowUps_wide _ _ _
  have W8 : WideFrame s7 s8 := by rw [hs8]; exact insertQuestions_wide _ _ _
  have W9 : WideFrame s8 s9 := by rw [hs9]; exact insertKeyQuotes_wide _ _ _
  have F10 := linkCounterResponses_frame clid e.counter_responses s9
  have C10 := linkCounterResponses_content clid e.counter_responses s9
  have htech4 : s4.technologies = base.technologies := by rw [W4.1.2.2.2, W3.1.2.2.2]
  have hobj5 : s5.objections = base.objections := by
    rw [F5.1.2.2.1, W4.1.2.2.1, W3.1.2.2.1]
  have hobj9 : s9.objections = base.objections := by
    rw [W9.1.2.2.1, W8.1.2.2.1, W7.1.2.2.1, F6.1.2.2.1]
    exact hobj5
  refine ⟨?_, ?_, ?_, ?_, ?_⟩
  · have h34 := coreFrame_trans W3.1 W4.1
    have h35 := coreFrame_trans h34 F5.1
    have h36 := coreFrame_trans h35 F6.1
    have h37 := coreFrame_trans h36 W7.1
    have h38 := coreFrame_trans h37 W8.1
    have h39 := coreFrame_trans h38 W9.1
    exact coreFrame_trans h39 F10.1
  · rw [F10.2.1, W9.2.1, W8.2.1, W7.2.1, F6.2.1, F5.2.1, W4.2.1, W3.2.1]
  · rw [F10.2.2.2, W9.2.2.2.1, W8.2.2.2.1, W7.2.2.2.1, F6.2.2.1, C5,
      W4.2.2.2.1, W3.2.2.2.1]
    congr 1
    apply List.filterMap_congr
    intro t _
    rw [getTechnologyId_congr htech4]
  · rw [F10.2.2.1, W9.2.2.1, W8.2.2.1, W7.2.2.1, C6, F5.2.2.1, W4.2.2.1, W3.2.2.1]
    congr 1
    apply List.filterMap_congr
    intro o _
    rw [getObjectionId_congr hobj5]
  · rw [C10, W9.2.2.2.2, W8.2.2.2.2, W7.2.2.2.2, F6.2.2.2, F5.2.2.2,
      W4.2.2.2.2, W3.2.2.2.2]
    congr 1
    apply List.filterMap_congr
    intro cr _
    rw [getObjectionId_congr hobj9]

/-- Full table-level description of `storeExtraction`: core tables
unchanged, one Call row appended, and the three closed-vocabulary join
tables extended by exactly the entries that resolve against the initial
store's vocabularies. -/
theorem storeExtraction_tables (st : Store) (rid : Nat) (rd : RawMeetingData)
    (e : ExtractionResult) :
    ∃ cid clid,
      CoreFrame st (storeExtraction st rid rd e)
      ∧ (storeExtraction st rid rd e).calls = st.calls ++ [mkCallRow clid rid rd e cid]
      ∧ (storeExtraction st rid rd e).callTechnologies =
          st.callTechnologies ++
            (e.tech_stack.filterMap fun t =>
              (getTechnologyId st t).map fun tid => (⟨clid, tid⟩ : CallTechnologyRow))
      ∧ (storeExtraction st rid rd e).callObjections =
          st.callObjections ++
            (e.objections.filterMap fun o =>
              (getObjectionId st o.type_key).map fun oid =>
                (⟨clid, oid, jsNull o.quote, jsNull o.context⟩ : CallObjectionRow))
      ∧ (storeExtraction st rid rd e).counterResponses =
          st.counterResponses ++
            (e.counter_responses.filterMap fun cr =>
              (getObjectionId st cr.objection_type_key).map fun oid =>
                (⟨oid, clid, cr.response_text, jsNull cr.outcome⟩ : CounterResponseRow)) := by
  obtain ⟨⟨h1m, h1n, h1o, h1t⟩, h1c, h1co, h1ct, h1cr⟩ :=
    getOrCreateCompany_wide st e.company_name rd.date
  have hw := writerChain_tables
    { (getOrCreateCompany st e.company_name rd.date).2 with
       calls :=
         (getOrCreateCompany st e.company_name rd.date).2.calls ++
           [mkCallRow (getOrCreateCompany st e.company_name rd.date).2.nextId rid rd e
             (getOrCreateCompany st e.company_name rd.date).1],
       nextId := (getOrCreateCompany st e.company_name rd.date).2.nextId + 1 }
    (getOrCreateCompany st e.company_name rd.date).1
    (getOrCreateCompany st e.company_name rd.date).2.nextId e
    (storeExtraction st rid rd e) rfl
  obtain ⟨hwcore, hwcalls, hwct, hwco, hwcr⟩ := hw
  refine ⟨(getOrCreateCompany st e.company_name rd.date).1,
    (getOrCreateCompany st e.company_name rd.date).2.nextId, ?_, ?_, ?_, ?_, ?_⟩
  · exact coreFrame_trans (⟨h1m, h1n, h1o, h1t⟩ : CoreFrame st _)
      (coreFrame_trans (⟨rfl, rfl, rfl, rfl⟩ : CoreFrame _ _) hwcore)
  · rw [hwcalls]
    show (getOrCreateCompany st e.company_name rd.date).2.calls ++ _ = _
    rw [h1c]
  · rw [hwct]
    have hctbl : (getOrCreateCompany st e.company_name rd.date).2.callTechnologies =
        st.callTechnologies := h1ct
    rw [show ({ (getOrCreateCompany st e.company_name rd.date).2 with
       calls :=
         (getOrCreateCompany st e.company_name rd.date).2.calls ++
           [mkCallRow (getOrCreateCompany st e.company_name rd.date).2.nextId rid rd e
             (getOrCreateCompany st e.company_name rd.date).1],
       nextId := (getOrCreateCompany st e.company_name rd.date).2.nextId + 1 } :
        Store).callTechnologies = st.callTechnologies from hctbl]
    congr 1
    apply List.filterMap_congr
    intro t _
    rw [getTechnologyId_congr
      (show ({ (getOrCreateCompany st e.company_name rd.date).2 with
         calls :=
           (getOrCreateCompany st e.company_name rd.date).2.calls ++
             [mkCallRow (getOrCreateCompany st e.company_name rd.date).2.nextId rid rd e
               (getOrCreateCompany st e.company_name rd.date).1],
         nextId := (getOrCreateCompany st e.company_name rd.date).2.nextId + 1 } :
          Store).technologies = st.technologies from h1t)]
  · rw [hwco]
    rw [show ({ (getOrCreateCompany st e.company_name rd.date).2 with
       calls :=
         (getOrCreateCompany st e.company_name rd.date).2.calls ++
           [mkCallRow (getOrCreateCompany st e.company_name rd.date).2.nextId rid rd e
             (getOrCreateCompany st e.company_name rd.date).1],
       nextId := (getOrCreateCompany st e.company_name rd.date).2.nextId + 1 } :
        Store).callObjections = st.callObjections from h1co]
    congr 1
    apply List.filterMap_congr
    intro o _
    rw [getObjectionId_congr
      (show ({ (getOrCreateCompany st e.company_name rd.date).2 with
         calls :=
           (getOrCreateCompany st e.company_name rd.date).2.calls ++
             [mkCallRow (getOrCreateCompany st e.company_name rd.date).2.nextId rid rd e
               (getOrCreateCompany st e.company_name rd.date).1],
         nextId := (getOrCreateCompany st e.company_name rd.date).2.nextId + 1 } :
          Store).objections = st.objections from h1o)]
  · rw [hwcr]
    rw [show ({ (getOrCreateCompany st e.company_name rd.date).2 with
       calls :=
         (getOrCreateCompany st e.company_name rd.date).2.calls ++
           [mkCallRow (getOrCreateCompany st e.company_name rd.date).2.nextId rid rd e
             (getOrCreateCompany st e.company_name rd.date).1],
       nextId := (getOrCreateCompany st e.company_name rd.date).2.nextId + 1 } :
        Store).counterResponses = st.counterResponses from h1cr]
    congr 1
    apply List.filterMap_congr
    intro cr _
    rw [getObjectionId_congr
      (show ({ (getOrCreateCompany st e.company_name rd.date).2 with
         calls :=
           (getOrCreateCompany st e.company_name rd.date).2.calls ++
             [mkCallRow (getOrCreateCompany st e.company_name rd.date).2.nextId rid rd e
               (getOrCreateCompany st e.company_name rd.date).1],
         nextId := (getOrCreateCompany st e.company_name rd.date).2.nextId + 1 } :
          Store).objections = st.objections from h1o)]

/-- Claim C5: the store writer never inserts into the `objections` or
`technologies` vocabulary tables, and every tech-stack, objection or
counter-response entry contributes a join row exactly when its name /
type key resolves against the pre-seeded vocabulary — unresolvable
entries contribute zero rows, and no error is raised for them (the
writer is a total function). -/
theorem closed_vocabulary_enforced (st : Store) (rid : Nat) (rd : RawMeetingData)
    (e : ExtractionResult) :
    (storeExtraction st rid rd e).objections = st.objections
    ∧ (storeExtraction st rid rd e).technologies = st.technologies
    ∧ ∃ clid,
        (storeExtraction st rid rd e).callTechnologies =
          st.callTechnologies ++
            (e.tech_stack.filterMap fun t =>
              (getTechnologyId st t).map fun tid => (⟨clid, tid⟩ : CallTechnologyRow))
        ∧ (storeExtraction st rid rd e).callObjections =
            st.callObjections ++
              (e.objections.filterMap fun o =>
                (getObjectionId st o.type_key).map fun oid =>
                  (⟨clid, oid, jsNull o.quote, jsNull o.context⟩ : CallObjectionRow))
        ∧ (storeExtraction st rid rd e).counterResponses =
            st.counterResponses ++
              (e.counter_responses.filterMap fun cr =>
                (getObjectionId st cr.objection_type_key).map fun oid =>
                  (⟨oid, clid, cr.response_text, jsNull cr.outcome⟩ : CounterResponseRow)) := by
  obtain ⟨cid, clid, hcore, hcalls, hct, hco, hcr⟩ := storeExtraction_tables st rid rd e
  exact ⟨hcore.2.2.1, hcore.2.2.2, clid, hct, hco, hcr⟩

/-- Claim C10: a non-empty `call_type`, `offering_pitched` or
`call_outcome` string passes through `normalizeResult` unchanged, even
when it is not one of the documented enum values; only absent or empty
values are replaced by the defaults `"discovery"`, `"none"` and
`"neutral"`; and the Call row stores the normalized strings verbatim. -/
theorem enum_strings_pass_through (raw : RawExtraction) (s : String) (hs : s ≠ "")
    (st : Store) (rid : Nat) (rd : RawMeetingData) (e : ExtractionResult) :
    (normalizeResult { raw with call_type := some s }).call_type = s
    ∧ (normalizeResult { raw with offering_pitched := some s }).offering_pitched = s
    ∧ (normalizeResult { raw with call_outcome := some s }).call_outcome = s
    ∧ (normalizeResult { raw with call_type := none }).call_type = "discovery"
    ∧ (normalizeResult { raw with call_type := some "" }).call_type = "discovery"
    ∧ (normalizeResult { raw with offering_pitched := none }).offering_pitched = "none"
    ∧ (normalizeResult { raw with offering_pitched := some "" }).offering_pitched = "none"
    ∧ (normalizeResult { raw with call_outcome := none }).call_outcome = "neutral"
    ∧ (normalizeResult { raw with call_outcome := some "" }).call_outcome = "neutral"
    ∧ ∃ cid clid,
        (storeExtraction st rid rd e).calls = st.calls ++ [mkCallRow clid rid rd e cid]
        ∧ (mkCallRow clid rid rd e cid).callType = e.call_type
        ∧ (mkCallRow clid rid rd e cid).offeringPitched = e.offering_pitched
        ∧ (mkCallRow clid rid rd e cid).callOutcome = e.call_outcome := by
  obtain ⟨cid, clid, _, hcalls, _, _, _⟩ := storeExtraction_tables st rid rd e
  refine ⟨?_, ?_, ?_, rfl, rfl, rfl, rfl, rfl, rfl, cid, clid, hcalls, rfl, rfl, rfl⟩
  · show jsOr (some s) "discovery" = s
    simp [jsOr, hs]
  · show jsOr (some s) "none" = s
    simp [jsOr, hs]
  · show jsOr (some s) "neutral" = s
    simp [jsOr, hs]

/-- Witness for C10: the out-of-enum call type "webinar" flows through
normalization unchanged. -/
theorem enum_strings_pass_through_check :
    ("webinar" : String) ≠ ""
    ∧ (normalizeResult { call_type := some "webinar" }).call_type = "webinar"
    ∧ (normalizeResult { call_type := none }).call_type = "discovery" := by
  have h := enum_strings_pass_through {} "webinar" (by decide) {} 0 {} (normalizeResult {})
  exact ⟨by decide, h.1, h.2.2.2.1⟩

/-! ## Driver lemmas -/

/-- `storeExtraction` never touches the meeting rows or the clock. -/
theorem storeExtraction_clock (st : Store) (rid : Nat) (rd : RawMeetingData)
    (e : ExtractionResult) :
    (storeExtraction st rid rd e).meetings = st.meetings
    ∧ (storeExtraction st rid rd e).now = st.now := by
  obtain ⟨cid, clid, hcore, _, _, _, _⟩ := storeExtraction_tables st rid rd e
  exact ⟨hcore.1, hcore.2.1⟩

/-- One driver iteration updates the meeting rows by exactly a
classification write followed by the mark-processed write, and keeps the
clock. -/
theorem processRecord_meetings (env : Nat → Behavior) (p : Store × Stats) (m : Meeting) :
    (processRecord env p m).1.meetings =
      setProcessedAt (setClassification p.1.meetings m.id (driverClassification env m))
        m.id p.1.now
    ∧ (processRecord env p m).1.now = p.1.now := by
  simp only [processRecord]
  split
  · split
    · exact ⟨rfl, rfl⟩
    · split
      · constructor
        · rw [(storeExtraction_clock _ _ _ _).1, (storeExtraction_clock _ _ _ _).2]
        · rw [(storeExtraction_clock _ _ _ _).2]
      · exact ⟨rfl, rfl⟩
  · exact ⟨rfl, rfl⟩

/-- The two meeting updates of one driver iteration, fused into one map. -/
theorem touch_eq (ms : List Meeting) (i : Nat) (c : Classification) (t : Nat) :
    setProcessedAt (setClassification ms i c) i t =
      ms.map fun m =>
        if m.id = i then { m with classification := some c, processedAt := some t }
        else m := by
  unfold setProcessedAt setClassification
  rw [List.map_map]
  apply List.map_congr_left
  intro a _
  by_cases h : a.id = i
  · simp [Function.comp, h]
  · simp [Function.comp, h]

/-- Pointwise effect of one driver iteration on the meeting rows: ids are
preserved, the targeted id is stamped with the clock, all other rows keep
their processed timestamp. -/
theorem processRecord_step_rel (env : Nat → Behavior) (p : Store × Stats) (m : Meeting) :
    List.Forall₂
      (fun mo mn => mn.id = mo.id ∧
        (mo.id = m.id → mn.processedAt = some p.1.now) ∧
        (mo.id ≠ m.id → mn.processedAt = mo.processedAt))
      p.1.meetings (processRecord env p m).1.meetings := by
  rw [(processRecord_meetings env p m).1, touch_eq]
  rw [List.forall₂_map_right_iff]
  apply List.forall₂_same.mpr
  intro x _
  by_cases h : x.id = m.id
  · refine ⟨by simp [h], fun _ => by simp [h], fun hne => absurd h hne⟩
  · refine ⟨by simp [h], fun heq => absurd heq h, fun _ => by simp [h]⟩

/-- Effect of folding the driver body over a backlog snapshot: every row
whose id appears in the snapshot ends up stamped with the clock, every
other row keeps its processed timestamp, and the clock is unchanged. -/
theorem runFold_rel (env : Nat → Behavior) (l : List Meeting) :
    ∀ p : Store × Stats,
      List.Forall₂
        (fun mo mn => mn.id = mo.id ∧
          (mo.id ∈ l.map Meeting.id → mn.processedAt = some p.1.now) ∧
          (mo.id ∉ l.map Meeting.id → mn.processedAt = mo.processedAt))
        p.1.meetings (l.foldl (processRecord env) p).1.meetings
      ∧ (l.foldl (processRecord env) p).1.now = p.1.now := by
  induction l with
  | nil =>
    intro p
    refine ⟨List.forall₂_same.mpr ?_, rfl⟩
    intro x _
    exact ⟨rfl, fun hmem => absurd hmem (by simp), fun _ => rfl⟩
  | cons m rest ih =>
    intro p
    have hnow1 : (processRecord env p m).1.now = p.1.now := (processRecord_meetings env p m).2
    obtain ⟨ihrel, ihnow⟩ := ih (processRecord env p m)
    constructor
    · refine forall₂_compose (processRecord_step_rel env p m) ihrel ?_
      intro a b c hab hbc
      refine ⟨hbc.1.trans hab.1, ?_, ?_⟩
      · intro hmem
        rw [List.map_cons] at hmem
        rcases List.mem_cons.mp hmem with h1 | h2
        · by_cases hr : b.id ∈ rest.map Meeting.id
          · rw [hbc.2.1 hr, hnow1]
          · rw [hbc.2.2 hr, hab.2.1 h1]
        · have hbr : b.id ∈ rest.map Meeting.id := by rw [hab.1]; exact h2
          rw [hbc.2.1 hbr, hnow1]
      · intro hnmem
        rw [List.map_cons] at hnmem
        have hne : a.id ≠ m.id := fun h => hnmem (List.mem_cons.mpr (Or.inl h))
        have hnr : a.id ∉ rest.map Meeting.id := fun h =>
          hnmem (List.mem_cons.mpr (Or.inr h))
        have hb : b.processedAt = a.processedAt := hab.2.2 hne
        have hc2 : c.processedAt = b.processedAt := by
          refine hbc.2.2 ?_
          rw [hab.1]
          exact hnr
        rw [hc2, hb]
    · rw [List.foldl_cons, ihnow, hnow1]

/-- Claim C1: for every store with distinct meeting ids and every LLM
behavior (successes, failures and parse errors included), one driver run
stamps every backlog record (processed timestamp absent) with the clock,
leaves every already-processed record's timestamp untouched, and the
backlog query over the resulting store selects zero records, so a second
run processes nothing. -/
theorem pipeline_marks_backlog_once (env : Nat → Behavior) (st : Store)
    (hnd : (st.meetings.map Meeting.id).Nodup) :
    List.Forall₂
      (fun mo mn => mn.id = mo.id ∧
        (mo.processedAt = none → mn.processedAt = some st.now) ∧
        (∀ t, mo.processedAt = some t → mn.processedAt = some t))
      st.meetings (runPipeline env st).1.meetings
    ∧ selectUnprocessed (runPipeline env st).1 = [] := by
  have hrel :
      List.Forall₂
        (fun mo mn => mn.id = mo.id ∧
          (mo.id ∈ (selectUnprocessed st).map Meeting.id → mn.processedAt = some st.now) ∧
          (mo.id ∉ (selectUnprocessed st).map Meeting.id →
            mn.processedAt = mo.processedAt))
        st.meetings (runPipeline env st).1.meetings :=
    (runFold_rel env (selectUnprocessed st)
      (st, { total := (selectUnprocessed st).length })).1
  have hconv :
      List.Forall₂
        (fun mo mn => mn.id = mo.id ∧
          (mo.processedAt = none → mn.processedAt = some st.now) ∧
          (∀ t, mo.processedAt = some t → mn.processedAt = some t))
        st.meetings (runPipeline env st).1.meetings := by
    refine forall₂_imp_mem hrel ?_
    intro mo hmo mn hR
    refine ⟨hR.1, ?_, ?_⟩
    · intro hpa
      refine hR.2.1 (List.mem_map_of_mem Meeting.id ?_)
      exact List.mem_filter.mpr ⟨hmo, by simp [hpa]⟩
    · intro t hpa
      have hnmem : mo.id ∉ (selectUnprocessed st).map Meeting.id := by
        intro hmem
        obtain ⟨mu, hmu, hid⟩ := List.mem_map.mp hmem
        have hmu2 := List.mem_filter.mp hmu
        have : mu = mo :=
          List.inj_on_of_nodup_map hnd (List.mem_of_mem_filter hmu) hmo hid
        rw [this] at hmu2
        rw [hpa] at hmu2
        simp at hmu2
      rw [hR.2.2 hnmem, hpa]
  refine ⟨hconv, ?_⟩
  rw [selectUnprocessed, List.filter_eq_nil_iff]
  intro mn hmn
  obtain ⟨mo, _, hR⟩ := forall₂_mem_right hconv mn hmn
  rcases hpa : mo.processedAt with _ | t
  · simp [hR.2.1 hpa]
  · simp [hR.2.2 t hpa]

/-- A two-meeting store (one backlog record, one already processed) for
the C1 witness. -/
def demoStore : Store :=
  { meetings := [{ id := 0 }, { id := 1, processedAt := some 7 }], now := 3 }

/-- Witness for C1 on `demoStore` with an always-failing LLM. -/
theorem pipeline_marks_backlog_once_check :
    (demoStore.meetings.map Meeting.id).Nodup
    ∧ (List.Forall₂
        (fun mo mn => mn.id = mo.id ∧
          (mo.processedAt = none → mn.processedAt = some demoStore.now) ∧
          (∀ t, mo.processedAt = some t → mn.processedAt = some t))
        demoStore.meetings (runPipeline (fun _ => {}) demoStore).1.meetings
      ∧ selectUnprocessed (runPipeline (fun _ => {}) demoStore).1 = []) :=
  ⟨by decide, pipeline_marks_backlog_once (fun _ => {}) demoStore (by decide)⟩

/-- Claim C2: when a sales-classified record has an adequate transcript but
extraction fails (the call threw or the model response did not parse as
JSON after fence stripping), the driver catches the error, counts one
extraction error, creates no Call row for the record, and still marks it
processed. -/
theorem extraction_error_isolated (env : Nat → Behavior) (st : Store) (stats : Stats)
    (m : Meeting)
    (hc : driverClassification env m = .sales_call)
    (hlen : ¬(jsOr (m.rawJson.getD {}).transcript_text "" = "" ∨
        (jsOr (m.rawJson.getD {}).transcript_text "").length < 50))
    (hext : (env m.id).extract = none) :
    (processRecord env (st, stats) m).2.extractionErrors = stats.extractionErrors + 1
    ∧ (processRecord env (st, stats) m).2.extracted = stats.extracted
    ∧ (processRecord env (st, stats) m).1.calls = st.calls
    ∧ ∀ mn ∈ (processRecord env (st, stats) m).1.meetings,
        mn.id = m.id → mn.processedAt = some st.now := by
  have heq : processRecord env (st, stats) m =
      ({ st with
          meetings :=
            setProcessedAt (setClassification st.meetings m.id .sales_call) m.id st.now },
        { tallyClass stats .sales_call with
           extractionErrors := (tallyClass stats .sales_call).extractionErrors + 1,
           extractCalls := (tallyClass stats .sales_call).extractCalls + 1 }) := by
    simp only [processRecord]
    rw [hc]
    rw [if_pos rfl, if_neg hlen, hext]
  rw [heq]
  refine ⟨rfl, rfl, rfl, ?_⟩
  intro mn hmn hid
  rw [touch_eq] at hmn
  obtain ⟨x, _, hfx⟩ := List.mem_map.mp hmn
  by_cases h : x.id = m.id
  · rw [← hfx]
    simp [h]
  · exfalso
    apply h
    rw [← hfx] at hid
    simp [h] at hid

/-- Claim C9: a sales-classified record whose transcript is absent, empty
or shorter than 50 characters is skipped: no extraction call, no
extraction-error count, no extracted count, no Call row — and the record
is still marked processed. -/
theorem short_transcript_skipped (env : Nat → Behavior) (st : Store) (stats : Stats)
    (m : Meeting)
    (hc : driverClassification env m = .sales_call)
    (hshort : jsOr (m.rawJson.getD {}).transcript_text "" = "" ∨
        (jsOr (m.rawJson.getD {}).transcript_text "").length < 50) :
    (processRecord env (st, stats) m).2.extractCalls = stats.extractCalls
    ∧ (processRecord env (st, stats) m).2.extractionErrors = stats.extractionErrors
    ∧ (processRecord env (st, stats) m).2.extracted = stats.extracted
    ∧ (processRecord env (st, stats) m).1.calls = st.calls
    ∧ ∀ mn ∈ (processRecord env (st, stats) m).1.meetings,
        mn.id = m.id → mn.processedAt = some st.now := by
  have heq : processRecord env (st, stats) m =
      ({ st with
          meetings :=
            setProcessedAt (setClassification st.meetings m.id .sales_call) m.id st.now },
        tallyClass stats .sales_call) := by
    simp only [processRecord]
    rw [hc]
    rw [if_pos rfl, if_pos hshort]
  rw [heq]
  refine ⟨rfl, rfl, rfl, rfl, ?_⟩
  intro mn hmn hid
  rw [touch_eq] at hmn
  obtain ⟨x, _, hfx⟩ := List.mem_map.mp hmn
  by_cases h : x.id = m.id
  · rw [← hfx]
    simp [h]
  · exfalso
    apply h
    rw [← hfx] at hid
    simp [h] at hid

/-- Raw data of a meeting the rule tier classifies as a sales call, with a
long-enough transcript (used by the C2 witness). -/
def salesRaw : RawMeetingData :=
  { title := some "Audit pricing proposal scope",
    transcript_text :=
      some "We discussed the audit pricing proposal and scope in detail today." }

/-- The meeting row wrapping `salesRaw`. -/
def salesMeeting : Meeting := { id := 0, rawJson := some salesRaw }

/-- A sales-classified meeting with no transcript (used by the C9 witness). -/
def shortMeeting : Meeting :=
  { id := 1, rawJson := some { title := some "Audit pricing proposal scope" } }

/-- An environment whose LLM calls always fail (extraction never parses). -/
def envNone : Nat → Behavior := fun _ => {}

/-- Witness for C2: a concrete sales meeting whose extraction fails. -/
theorem extraction_error_isolated_check :
    driverClassification envNone salesMeeting = .sales_call
    ∧ (processRecord envNone ({}, {}) salesMeeting).2.extractionErrors =
        ({} : Stats).extractionErrors + 1
    ∧ (processRecord envNone ({}, {}) salesMeeting).1.calls = ({} : Store).calls := by
  have h := extraction_error_isolated envNone {} {} salesMeeting (by decide) (by decide) rfl
  exact ⟨by decide, h.1, h.2.2.1⟩

/-- Witness for C9: a concrete sales meeting with no transcript is
skipped but still processed. -/
theorem short_transcript_skipped_check :
    driverClassification envNone shortMeeting = .sales_call
    ∧ (processRecord envNone ({}, {}) shortMeeting).2.extractCalls =
        ({} : Stats).extractCalls
    ∧ (processRecord envNone ({}, {}) shortMeeting).2.extractionErrors =
        ({} : Stats).extractionErrors := by
  have h := short_transcript_skipped envNone {} {} shortMeeting (by decide)
    (Or.inl (by decide))
  exact ⟨by decide, h.1, h.2.1⟩
